import Mathlib

/-!
Shallow embedding of the LiqGuard repository: two Solana Anchor programs.

The repository consists of two on-chain programs:
  - liqguard (src/programs/liqguard/src/lib.rs): a self-service,
    oracle-triggered price-insurance policy ("PolicyB" in the spec) with the
    instructions initialize_policy and liquidate_policy;
  - policyfactory (src/policyfactory/programs/policyfactory/src/lib.rs): an
    authority-mediated option policy ("PolicyA" in the spec) with the
    instructions create_policy, activate_policy and close_policy.

Modelling conventions.  Public keys are natural numbers.  Machine integers
are Nat or Int; u64 overflow matters only in the checked power computation of
liquidate_policy, where it is made explicit against U64_MAX.  Each
instruction is a pure function returning Except: an error models the whole
transaction aborting, so that no state change escapes (the atomic rollback
the ledger guarantees).  Fund movement is modelled by explicit balance
passing; deterministic address derivation (PDA and associated token
addresses) is modelled by an injective pairing on keys, and the
program-derived signing authority over the vault is implicit in the fact
that only liquidate_policy can move the vault balance.  Anchor account
constraints that run before an instruction handler (init on an existing
account, associated_token constraints) are modelled as checks performed
before the body of the translated handler.
-/

deriving instance DecidableEq for Except

abbrev Pubkey := Nat

namespace LiqGuard

/-- Policy account of the liqguard program, field for field. -/
structure Policy where
  owner : Pubkey
  strike_price : Nat
  is_long_insurance : Bool
  coverage_amount : Nat
  is_claimed : Bool
  policy_bump : Nat
  vault_bump : Nat
deriving DecidableEq, Repr

/-- Error outcomes of the liqguard instructions.  The first four constructors
are the LiqGuardError codes of the source.  TransferFailed models the system
program transfer CPI failing (insufficient vault balance); AccountAlreadyInUse
models the Anchor init constraint rejecting an account that already exists;
AccountNotFound models account resolution failing for a missing policy. -/
inductive LiqGuardError where
  | PriceStale
  | MathOverflow
  | LiquidationConditionNotMet
  | AlreadyClaimed
  | TransferFailed
  | AccountAlreadyInUse
  | AccountNotFound
deriving DecidableEq, Repr

/-- The hard-coded BTC/USD feed identifier passed to get_feed_id_from_hex. -/
def BTC_FEED_ID : Nat :=
  0xe62df6c8b4a85fe1a67db44dc12de5db330f7ac66b72dc658afedf0f4a415b43

/-- Largest value representable in a u64. -/
def U64_MAX : Nat := 2 ^ 64 - 1

/-- A Pyth price observation: feed identifier, signed integer magnitude,
decimal exponent, and age in seconds relative to the current time. -/
structure PriceObservation where
  feed_id : Nat
  magnitude : Int
  exponent : Int
  age : Nat
deriving DecidableEq, Repr

/-- Model of PriceUpdateV2.get_price_no_older_than: returns the price data
when the observation is for the requested feed and its age does not exceed
maximum_age, and none otherwise. -/
def get_price_no_older_than (obs : PriceObservation) (feedId : Nat)
    (maximum_age : Nat) : Option (Int × Int) :=
  if obs.feed_id = feedId ∧ obs.age ≤ maximum_age then
    some (obs.magnitude, obs.exponent)
  else
    none

/-- Model of 10u64.checked_pow k: none exactly when the power overflows u64. -/
def checked_pow10 (k : Nat) : Option Nat :=
  if 10 ^ k ≤ U64_MAX then some (10 ^ k) else none

/-- Model of u64 checked_div: none exactly when the divisor is zero. -/
def checked_div (a b : Nat) : Option Nat :=
  if b = 0 then none else some (a / b)

/-- Price normalization steps of liquidate_policy: reject a negative
magnitude, compute the factor 10 to the absolute exponent with overflow
checked against u64, and divide (truncating integer division). -/
def normalize_price (magnitude exponent : Int) : Except LiqGuardError Nat :=
  if magnitude < 0 then
    .error .MathOverflow
  else
    match checked_pow10 exponent.natAbs with
    | none => .error .MathOverflow
    | some f =>
      match checked_div magnitude.toNat f with
      | none => .error .MathOverflow
      | some q => .ok q

/-- Directional trigger rule of liquidate_policy: protect-long pays when the
current price is strictly below the strike, protect-short pays when it is
strictly above. -/
def should_liquidate (is_long_insurance : Bool)
    (current_price strike_price : Nat) : Bool :=
  if is_long_insurance then
    decide (current_price < strike_price)
  else
    decide (strike_price < current_price)

/-- Model of the system program transfer: succeeds exactly when the source
balance covers the amount, debiting and crediting exactly that amount. -/
def system_transfer (from_lamports to_lamports amount : Nat) :
    Option (Nat × Nat) :=
  if amount ≤ from_lamports then
    some (from_lamports - amount, to_lamports + amount)
  else
    none

/-- Accounts supplied to liquidate_policy besides the policy itself: the
vault balance, the caller-supplied recipient account (key and balance), and
the transaction signer.  The source marks the user account CHECK: it carries
no constraint, and the signer is likewise unconstrained. -/
structure LiquidateAccounts where
  vault_lamports : Nat
  user : Pubkey
  user_lamports : Nat
  signer : Pubkey
deriving DecidableEq, Repr

/-- Result of a successful liquidate_policy: the updated policy account and
the updated vault and user balances. -/
structure LiquidateResult where
  policy : Policy
  vault_lamports : Nat
  user_lamports : Nat
deriving DecidableEq, Repr

/-- Translation of the liquidate_policy handler, step for step: already
claimed check, oracle read with a 60 second staleness bound for the fixed BTC
feed, negative magnitude check, normalization, directional trigger, then the
transfer of coverage_amount from the vault to the user account and the
claimed flag flip.  The PDA seed checks on the policy and vault accounts pin
the addresses but no data the model tracks; the vault transfer is signed by
the program via the stored vault bump, modelled by the fact that only this
function moves the vault balance. -/
def liquidate_policy (policy : Policy) (obs : PriceObservation)
    (accounts : LiquidateAccounts) : Except LiqGuardError LiquidateResult :=
  if policy.is_claimed then
    .error .AlreadyClaimed
  else
    match get_price_no_older_than obs BTC_FEED_ID 60 with
    | none => .error .PriceStale
    | some (m, e) =>
      match normalize_price m e with
      | .error err => .error err
      | .ok current_price =>
        if should_liquidate policy.is_long_insurance current_price
            policy.strike_price then
          match system_transfer accounts.vault_lamports accounts.user_lamports
              policy.coverage_amount with
          | none => .error .TransferFailed
          | some (v, u) =>
            .ok ⟨{ policy with is_claimed := true }, v, u⟩
        else
          .error .LiquidationConditionNotMet

/-- Observable outcome of a liquidate_policy transaction: on success the new
state, on any error the original state, modelling the atomic rollback of the
surrounding transaction. -/
def run_liquidate_policy (policy : Policy) (obs : PriceObservation)
    (accounts : LiquidateAccounts) : Policy × Nat × Nat :=
  match liquidate_policy policy obs accounts with
  | .ok r => (r.policy, r.vault_lamports, r.user_lamports)
  | .error _ => (policy, accounts.vault_lamports, accounts.user_lamports)

/-- Translation of initialize_policy.  The policy and vault addresses are
both derived from the fixed seed labels and the owner key alone, so the
Anchor init constraint fails exactly when a policy for this owner already
exists; existing is the set of owners whose policy accounts exist.  On
success every field is recorded as supplied and is_claimed is false. -/
def initialize_policy (existing : List Pubkey) (owner : Pubkey)
    (strike_price : Nat) (is_long_insurance : Bool) (coverage_amount : Nat)
    (policy_bump vault_bump : Nat) :
    Except LiqGuardError (Policy × List Pubkey) :=
  if owner ∈ existing then
    .error .AccountAlreadyInUse
  else
    .ok (⟨owner, strike_price, is_long_insurance, coverage_amount, false,
          policy_bump, vault_bump⟩, owner :: existing)

/-- Association list lookup keyed by public key. -/
def assoc_lookup {α : Type} (m : List (Pubkey × α)) (k : Pubkey) : Option α :=
  (m.find? (fun e => e.1 = k)).map Prod.snd

/-- Association list update keyed by public key. -/
def assoc_set {α : Type} (m : List (Pubkey × α)) (k : Pubkey) (v : α) :
    List (Pubkey × α) :=
  m.map (fun e => if e.1 = k then (k, v) else e)

/-- Association list lookup of a balance, defaulting to zero for an account
that has never been credited. -/
def assoc_get0 (m : List (Pubkey × Nat)) (k : Pubkey) : Nat :=
  (assoc_lookup m k).getD 0

/-- Ledger state touched by the liqguard program: policy accounts keyed by
owner (the PDA seed), vault balances keyed by owner, and the balances of
ordinary wallet accounts. -/
structure WorldB where
  policies : List (Pubkey × Policy)
  vaults : List (Pubkey × Nat)
  wallets : List (Pubkey × Nat)
deriving DecidableEq, Repr

/-- The operations that can touch liqguard state: the two program
instructions, plus fund_vault, the external deposit by which the owner funds
the vault (the spec notes the vault is funded by the owner outside this
core). -/
inductive OpB where
  | init_policy (owner : Pubkey) (strike_price : Nat) (is_long_insurance : Bool)
      (coverage_amount : Nat) (policy_bump vault_bump : Nat)
  | fund_vault (owner : Pubkey) (amount : Nat)
  | liquidate (owner : Pubkey) (obs : PriceObservation) (user signer : Pubkey)
deriving DecidableEq, Repr

/-- One transaction against the liqguard ledger state.  An error leaves the
world unchanged by construction (the whole transaction aborts). -/
def stepB (w : WorldB) (op : OpB) : Except LiqGuardError WorldB :=
  match op with
  | .init_policy owner s d c pb vb =>
    match initialize_policy (w.policies.map Prod.fst) owner s d c pb vb with
    | .error e => .error e
    | .ok (p, _) =>
      .ok { w with policies := (owner, p) :: w.policies,
                   vaults := (owner, 0) :: w.vaults }
  | .fund_vault owner amount =>
    .ok { w with
          vaults := assoc_set w.vaults owner (assoc_get0 w.vaults owner + amount) }
  | .liquidate owner obs user signer =>
    match assoc_lookup w.policies owner with
    | none => .error .AccountNotFound
    | some p =>
      match liquidate_policy p obs
          ⟨assoc_get0 w.vaults owner, user, assoc_get0 w.wallets user, signer⟩ with
      | .error e => .error e
      | .ok r =>
        .ok { policies := assoc_set w.policies owner r.policy,
              vaults := assoc_set w.vaults owner r.vault_lamports,
              wallets := assoc_set w.wallets user r.user_lamports }

end LiqGuard

namespace PolicyFactory

/-- Underlying asset tag of a factory policy. -/
inductive UnderlyingAsset where
  | BTC
  | ETH
  | SOL
deriving DecidableEq, Repr

/-- Option type tag of a factory policy. -/
inductive CallOrPut where
  | Call
  | Put
deriving DecidableEq, Repr

/-- Lifecycle status of a factory policy. -/
inductive PolicyStatus where
  | Inactive
  | Active
deriving DecidableEq, Repr

/-- Policy account of the policyfactory program, field for field. -/
structure Policy where
  authority : Pubkey
  nonce : Nat
  strike_price : Nat
  expiration_datetime : Int
  underlying_asset : UnderlyingAsset
  call_or_put : CallOrPut
  coverage_amount : Nat
  premium : Nat
  payout_wallet : Pubkey
  payment_mint : Pubkey
  status : PolicyStatus
  bump : Nat
deriving DecidableEq, Repr

/-- The ErrorCode enum of the policyfactory program. -/
inductive ErrorCode where
  | UnauthorizedPayer
  | PolicyAlreadyActive
  | PolicyNotActive
  | UnauthorizedAuthority
  | UnauthorizedProgramAuthority
  | InsufficientBalance
  | TokenMintMismatch
  | InvalidAmount
  | InvalidTokenAccount
deriving DecidableEq, Repr

/-- Error outcomes of the policyfactory instructions: the program error codes
plus the failures raised before or below the handler body — the Anchor init
constraint on an existing account, the associated_token constraint on the
payer token account, and a token program transfer CPI failure. -/
inductive PfError where
  | accountAlreadyInUse
  | associatedTokenConstraint
  | tokenTransferFailed
  | program (code : ErrorCode)
deriving DecidableEq, Repr

/-- The hard-coded program authority key of the source, modelled as a fixed
abstract key (the base58 constant GhgQwWfyZqjjaDBtVUmmc3rg9NEX9qQYhew1ACFRJmp8). -/
def PROGRAM_AUTHORITY : Pubkey := 777000001

/-- Deterministic associated token account address for an owner and a mint,
modelled by an injective pairing of the two keys. -/
def get_associated_token_address (owner mint : Pubkey) : Pubkey :=
  Nat.pair owner mint

/-- An SPL token account: its address and the owner, mint and amount stored
in its data. -/
structure TokenAccount where
  address : Pubkey
  mint : Pubkey
  owner : Pubkey
  amount : Nat
deriving DecidableEq, Repr

/-- Model of the SPL token transfer CPI: succeeds exactly when the signing
authority owns the source account, the mints agree, and the source balance
covers the amount; debits and credits exactly that amount. -/
def spl_transfer (source destination : TokenAccount) (authority : Pubkey)
    (amount : Nat) : Option (TokenAccount × TokenAccount) :=
  if source.owner = authority ∧ source.mint = destination.mint ∧
      amount ≤ source.amount then
    some ({ source with amount := source.amount - amount },
          { destination with amount := destination.amount + amount })
  else
    none

/-- Translation of create_policy.  The policy address is derived from the
caller key and the nonce, so the Anchor init constraint fails exactly when a
policy for this (authority, nonce) pair already exists; existing is the set
of such pairs.  The handler then checks the three amounts and the program
authority, records every field, and sets status Inactive.  The instruction
context holds no token account, so no funds move. -/
def create_policy (existing : List (Pubkey × Nat)) (authority : Pubkey)
    (nonce strike_price : Nat) (expiration_datetime : Int)
    (underlying_asset : UnderlyingAsset) (call_or_put : CallOrPut)
    (coverage_amount premium : Nat) (payout_wallet payment_mint : Pubkey)
    (bump : Nat) : Except PfError (Policy × List (Pubkey × Nat)) :=
  if (authority, nonce) ∈ existing then
    .error .accountAlreadyInUse
  else if premium = 0 then
    .error (.program .InvalidAmount)
  else if coverage_amount = 0 then
    .error (.program .InvalidAmount)
  else if strike_price = 0 then
    .error (.program .InvalidAmount)
  else if authority ≠ PROGRAM_AUTHORITY then
    .error (.program .UnauthorizedProgramAuthority)
  else
    .ok (⟨authority, nonce, strike_price, expiration_datetime,
          underlying_asset, call_or_put, coverage_amount, premium,
          payout_wallet, payment_mint, .Inactive, bump⟩,
         (authority, nonce) :: existing)

/-- Result of a successful activate_policy: the updated policy and the two
updated token accounts. -/
structure ActivateResult where
  policy : Policy
  payer_token_account : TokenAccount
  authority_token_account : TokenAccount
deriving DecidableEq, Repr

/-- Translation of activate_policy.  The Anchor associated_token constraint
on the payer token account runs first (address, mint and owner must match the
associated token account of the payer for the policy payment mint); the
handler then checks the caller is the payout wallet, the status is Inactive,
the payer balance covers the premium, and the authority token account address
is the expected associated token address, transfers exactly the premium, and
only then sets status Active. -/
def activate_policy (policy : Policy) (payer : Pubkey)
    (payer_token_account authority_token_account : TokenAccount) :
    Except PfError ActivateResult :=
  if ¬ (payer_token_account.address =
          get_associated_token_address payer policy.payment_mint ∧
        payer_token_account.mint = policy.payment_mint ∧
        payer_token_account.owner = payer) then
    .error .associatedTokenConstraint
  else if payer ≠ policy.payout_wallet then
    .error (.program .UnauthorizedPayer)
  else if policy.status ≠ .Inactive then
    .error (.program .PolicyAlreadyActive)
  else if payer_token_account.amount < policy.premium then
    .error (.program .InsufficientBalance)
  else if authority_token_account.address ≠
      get_associated_token_address policy.authority policy.payment_mint then
    .error (.program .InvalidTokenAccount)
  else
    match spl_transfer payer_token_account authority_token_account payer
        policy.premium with
    | none => .error .tokenTransferFailed
    | some (s, d) => .ok ⟨{ policy with status := .Active }, s, d⟩

/-- Observable outcome of an activate_policy transaction: on success the new
state, on any error the original state, modelling the atomic rollback of the
surrounding transaction. -/
def run_activate_policy (policy : Policy) (payer : Pubkey)
    (payer_token_account authority_token_account : TokenAccount) :
    Policy × TokenAccount × TokenAccount :=
  match activate_policy policy payer payer_token_account
      authority_token_account with
  | .ok r => (r.policy, r.payer_token_account, r.authority_token_account)
  | .error _ => (policy, payer_token_account, authority_token_account)

/-- Result of a successful close_policy: the two updated token accounts, the
amount moved from the authority account to the payout account (zero when the
payout branch is skipped), and the fact that the policy record is deleted —
the Anchor close constraint removes it unconditionally on success. -/
structure CloseResult where
  authority_token_account : TokenAccount
  payout_token_account : TokenAccount
  transferred : Nat
  record_deleted : Bool
deriving DecidableEq, Repr

/-- Translation of close_policy.  The caller must be the program authority.
When payout is requested and the policy is Active, both token account
addresses are validated against their expected associated token addresses,
the authority balance must cover the coverage amount, and exactly the
coverage amount is transferred; otherwise the transfer is skipped.  In every
successful case the policy record is deleted. -/
def close_policy (policy : Policy) (payout : Bool) (authority : Pubkey)
    (authority_token_account payout_token_account : TokenAccount) :
    Except PfError CloseResult :=
  if authority ≠ PROGRAM_AUTHORITY then
    .error (.program .UnauthorizedProgramAuthority)
  else if payout ∧ policy.status = .Active then
    if authority_token_account.address ≠
        get_associated_token_address policy.authority policy.payment_mint then
      .error (.program .InvalidTokenAccount)
    else if payout_token_account.address ≠
        get_associated_token_address policy.payout_wallet policy.payment_mint then
      .error (.program .InvalidTokenAccount)
    else if authority_token_account.amount < policy.coverage_amount then
      .error (.program .InsufficientBalance)
    else
      match spl_transfer authority_token_account payout_token_account
          authority policy.coverage_amount with
      | none => .error .tokenTransferFailed
      | some (s, d) => .ok ⟨s, d, policy.coverage_amount, true⟩
  else
    .ok ⟨authority_token_account, payout_token_account, 0, true⟩

end PolicyFactory

namespace LiqGuard

/-- The u64 checked power of ten succeeds exactly for exponent magnitudes up
to 19: 10 to the 20 already exceeds U64_MAX. -/
theorem pow10_le_u64max_iff (k : Nat) : 10 ^ k ≤ U64_MAX ↔ k ≤ 19 := by
  constructor
  · intro h
    by_contra hk
    have h20 : 20 ≤ k := by omega
    have h1 : (10 : Nat) ^ 20 ≤ 10 ^ k := Nat.pow_le_pow_right (by norm_num) h20
    have h2 : (10 : Nat) ^ 20 ≤ U64_MAX := le_trans h1 h
    norm_num [U64_MAX] at h2
  · intro h
    calc (10 : Nat) ^ k ≤ 10 ^ 19 := Nat.pow_le_pow_right (by norm_num) h
    _ ≤ U64_MAX := by norm_num [U64_MAX]

/-- C3: for every normalized price and strike price, the protect-long rule
triggers exactly when the price is strictly below the strike and the
protect-short rule exactly when it is strictly above; equality never triggers
in either direction; the three concrete rows of the trigger table of the spec
hold. -/
theorem c3_directional_trigger_rule (price strike : Nat) :
    (should_liquidate true price strike = true ↔ price < strike) ∧
    (should_liquidate false price strike = true ↔ strike < price) ∧
    should_liquidate true strike strike = false ∧
    should_liquidate false strike strike = false ∧
    should_liquidate true 90000 95000 = true ∧
    should_liquidate true 95000 95000 = false ∧
    should_liquidate false 100000 95000 = true := by
  refine ⟨?_, ?_, ?_, ?_, by decide, by decide, by decide⟩ <;>
    simp [should_liquidate]

/-- C4, counterexample: with magnitude 0 and exponent -20 the normalization
does not yield 0 — computing 10 to the 20 overflows u64, so the call fails
with MathOverflow even though the magnitude is 0 and the exponent negative. -/
theorem c4_zero_magnitude_counterexample :
    normalize_price 0 (-20) = .error .MathOverflow ∧
    normalize_price 0 (-20) ≠ .ok 0 := by decide

/-- C4, amended: normalization computes magnitude divided by 10 to the
absolute exponent with truncating integer division for every non-negative
magnitude whenever the absolute exponent is at most 19, and fails with
MathOverflow whenever it is 20 or more (the power of ten overflows u64, even
for magnitude 0); magnitude 9500000000000 with exponent -8 yields 95000, and
magnitude 0 yields 0 for every negative exponent of absolute value at most
19. -/
theorem c4_normalize_price_truncating (m e : Int) (hm : 0 ≤ m) :
    (e.natAbs ≤ 19 → normalize_price m e = .ok (m.toNat / 10 ^ e.natAbs)) ∧
    (20 ≤ e.natAbs → normalize_price m e = .error .MathOverflow) ∧
    normalize_price 9500000000000 (-8) = .ok 95000 ∧
    (∀ e2 : Int, e2 < 0 → e2.natAbs ≤ 19 → normalize_price 0 e2 = .ok 0) := by
  have hnm : ¬ m < 0 := by omega
  refine ⟨?_, ?_, by decide, ?_⟩
  · intro h19
    have hle : 10 ^ e.natAbs ≤ U64_MAX := (pow10_le_u64max_iff _).mpr h19
    have hnz : 10 ^ e.natAbs ≠ 0 := pow_ne_zero _ (by norm_num)
    simp [normalize_price, checked_pow10, checked_div, hnm, hle, hnz]
  · intro h20
    have hle : ¬ 10 ^ e.natAbs ≤ U64_MAX := by
      rw [pow10_le_u64max_iff]; omega
    simp [normalize_price, checked_pow10, hnm, hle]
  · intro e2 _ h19
    have hle : 10 ^ e2.natAbs ≤ U64_MAX := (pow10_le_u64max_iff _).mpr h19
    have hnz : 10 ^ e2.natAbs ≠ 0 := pow_ne_zero _ (by norm_num)
    simp [normalize_price, checked_pow10, checked_div, hle, hnz]

/-- C4, witness: the amended theorem applied at the round-trip input of the
spec. -/
theorem c4_normalize_price_witness :
    normalize_price 9500000000000 (-8) = .ok 95000 :=
  (c4_normalize_price_truncating 9500000000000 (-8) (by decide)).2.2.1

end LiqGuard

namespace LiqGuard

/-- C8: with an unclaimed policy, an observation older than 60 seconds makes
liquidate_policy fail with PriceStale, and the transaction leaves the policy,
the vault balance and the user balance unchanged (no transfer, claimed still
false). -/
theorem c8_stale_observation_rejected (p : Policy) (obs : PriceObservation)
    (accounts : LiquidateAccounts) (hc : p.is_claimed = false)
    (hage : 60 < obs.age) :
    liquidate_policy p obs accounts = .error .PriceStale ∧
    run_liquidate_policy p obs accounts =
      (p, accounts.vault_lamports, accounts.user_lamports) := by
  have hnone : get_price_no_older_than obs BTC_FEED_ID 60 = none := by
    rw [get_price_no_older_than, if_neg]
    rintro ⟨-, h2⟩
    omega
  have herr : liquidate_policy p obs accounts = .error .PriceStale := by
    rw [liquidate_policy, if_neg (by simp [hc]), hnone]
  exact ⟨herr, by rw [run_liquidate_policy, herr]⟩

/-- C8, witness: the theorem applied to a concrete unclaimed policy and an
observation of age 61. -/
theorem c8_stale_observation_witness :
    liquidate_policy ⟨1, 95000, true, 500, false, 254, 253⟩
      ⟨BTC_FEED_ID, 9000000000000, -8, 61⟩ ⟨1000, 2, 7, 3⟩ =
      .error .PriceStale :=
  (c8_stale_observation_rejected _ _ _ rfl (by decide)).1

/-- C1, counterexample: a successful liquidation whose recipient account
(key 2) is not the policy owner (key 1) and whose signer (key 3) is not the
owner either — the program checks neither account against the owner, so the
payout goes to whatever recipient the transaction supplies, not to an account
the owner designated. -/
theorem c1_recipient_unconstrained_counterexample :
    liquidate_policy ⟨1, 95000, true, 500, false, 254, 253⟩
      ⟨BTC_FEED_ID, 9000000000000, -8, 0⟩ ⟨1000, 2, 7, 3⟩ =
      .ok ⟨⟨1, 95000, true, 500, true, 254, 253⟩, 500, 507⟩ ∧
    (2 : Pubkey) ≠ (1 : Pubkey) ∧ (3 : Pubkey) ≠ (1 : Pubkey) := by decide

/-- C1, amended: every successful liquidate_policy transfers exactly
coverage_amount out of the vault into the caller-supplied recipient account
and returns the policy with claimed set to true and every other field
unchanged; the recipient is whatever user account the transaction supplies —
nothing ties it to the policy owner. -/
theorem c1_liquidate_transfers_coverage (p : Policy) (obs : PriceObservation)
    (accounts : LiquidateAccounts) (r : LiquidateResult)
    (h : liquidate_policy p obs accounts = .ok r) :
    p.coverage_amount ≤ accounts.vault_lamports ∧
    r.vault_lamports = accounts.vault_lamports - p.coverage_amount ∧
    r.user_lamports = accounts.user_lamports + p.coverage_amount ∧
    r.policy = { p with is_claimed := true } := by
  rw [liquidate_policy] at h
  split at h
  · simp at h
  · split at h
    · simp at h
    · split at h
      · simp at h
      · split at h
        · split at h
          · simp at h
          · rename_i v u heq
            rw [system_transfer] at heq
            split at heq
            · rename_i hle
              injection heq with heq2
              injection h with h2
              subst h2
              refine ⟨hle, ?_⟩
              cases heq2
              exact ⟨rfl, rfl, rfl⟩
            · simp at heq
        · simp at h

/-- C1, witness: the amended theorem applied to a concrete successful
liquidation. -/
theorem c1_liquidate_transfers_witness :
    (500 : Nat) ≤ 1000 ∧ (500 : Nat) = 1000 - 500 ∧ (507 : Nat) = 7 + 500 ∧
    (⟨1, 95000, true, 500, true, 254, 253⟩ : Policy) =
      ⟨1, 95000, true, 500, true, 254, 253⟩ :=
  c1_liquidate_transfers_coverage ⟨1, 95000, true, 500, false, 254, 253⟩
    ⟨BTC_FEED_ID, 9000000000000, -8, 0⟩ ⟨1000, 2, 7, 3⟩
    ⟨⟨1, 95000, true, 500, true, 254, 253⟩, 500, 507⟩ (by decide)

end LiqGuard

namespace LiqGuard

/-- Lookup in a cons association list. -/
theorem assoc_lookup_cons {α : Type} (a : Pubkey) (b : α)
    (l : List (Pubkey × α)) (k : Pubkey) :
    assoc_lookup ((a, b) :: l) k = if a = k then some b else assoc_lookup l k := by
  by_cases h : a = k <;> simp [assoc_lookup, List.find?_cons, h]

/-- Lookup of an absent key yields none. -/
theorem assoc_lookup_not_mem {α : Type} (m : List (Pubkey × α)) (k : Pubkey)
    (h : k ∉ m.map Prod.fst) : assoc_lookup m k = none := by
  induction m with
  | nil => rfl
  | cons e t ih =>
    obtain ⟨a, b⟩ := e
    simp only [List.map_cons, List.mem_cons] at h
    push_neg at h
    rw [assoc_lookup_cons, if_neg (fun hak => h.1 hak.symm)]
    exact ih h.2

/-- Lookup succeeds exactly for the keys present in the list. -/
theorem assoc_lookup_isSome_iff {α : Type} (m : List (Pubkey × α)) (k : Pubkey) :
    (assoc_lookup m k).isSome = true ↔ k ∈ m.map Prod.fst := by
  induction m with
  | nil => simp [assoc_lookup]
  | cons e t ih =>
    obtain ⟨a, b⟩ := e
    rw [assoc_lookup_cons]
    by_cases h : a = k
    · subst h
      simp
    · rw [if_neg h]
      simp only [List.map_cons, List.mem_cons]
      rw [ih]
      constructor
      · intro hk
        exact Or.inr hk
      · rintro (rfl | hk)
        · exact absurd rfl h
        · exact hk

/-- Updating a key rewrites exactly the value found at that key. -/
theorem assoc_lookup_set_self {α : Type} (m : List (Pubkey × α)) (k : Pubkey)
    (v : α) :
    assoc_lookup (assoc_set m k v) k = (assoc_lookup m k).map (fun _ => v) := by
  induction m with
  | nil => rfl
  | cons e t ih =>
    obtain ⟨a, b⟩ := e
    by_cases h : a = k
    · subst h
      simp [assoc_set, assoc_lookup_cons]
    · simp only [assoc_set, List.map_cons, if_neg h]
      rw [assoc_lookup_cons, assoc_lookup_cons, if_neg h, if_neg h]
      exact ih

/-- Updating a key leaves every other lookup unchanged. -/
theorem assoc_lookup_set_ne {α : Type} (m : List (Pubkey × α)) (k j : Pubkey)
    (v : α) (h : j ≠ k) :
    assoc_lookup (assoc_set m k v) j = assoc_lookup m j := by
  induction m with
  | nil => rfl
  | cons e t ih =>
    obtain ⟨a, b⟩ := e
    by_cases hak : a = k
    · subst hak
      simp only [assoc_set, List.map_cons, if_pos rfl]
      rw [assoc_lookup_cons, assoc_lookup_cons,
        if_neg (fun hkj => h hkj.symm), if_neg (fun hkj => h hkj.symm)]
      exact ih
    · simp only [assoc_set, List.map_cons, if_neg hak]
      rw [assoc_lookup_cons, assoc_lookup_cons]
      by_cases haj : a = j
      · simp [haj]
      · rw [if_neg haj, if_neg haj]
        exact ih

/-- A successful liquidation returns the policy with the claimed flag set. -/
theorem liquidate_policy_ok_is_claimed (p : Policy) (obs : PriceObservation)
    (accounts : LiquidateAccounts) (r : LiquidateResult)
    (h : liquidate_policy p obs accounts = .ok r) :
    r.policy.is_claimed = true := by
  rw [liquidate_policy] at h
  split at h
  · simp at h
  · split at h
    · simp at h
    · split at h
      · simp at h
      · split at h
        · split at h
          · simp at h
          · injection h with h2
            subst h2
            rfl
        · simp at h

/-- C5: the claimed flag is monotonic.  initialize_policy records it false;
a successful liquidate_policy returns it true; with the flag already true,
liquidate_policy fails with AlreadyClaimed for every observation whatsoever
(so before any oracle read) and the transaction moves no funds; and across
every operation of the program, a policy that was claimed stays claimed. -/
theorem c5_claimed_flag_monotonic :
    (∀ existing owner s d c pb vb p rest,
        initialize_policy existing owner s d c pb vb = .ok (p, rest) →
        p.is_claimed = false) ∧
    (∀ p obs accounts r, liquidate_policy p obs accounts = .ok r →
        r.policy.is_claimed = true) ∧
    (∀ p obs accounts, p.is_claimed = true →
        liquidate_policy p obs accounts = .error .AlreadyClaimed ∧
        run_liquidate_policy p obs accounts =
          (p, accounts.vault_lamports, accounts.user_lamports)) ∧
    (∀ w op w2 k p p2, stepB w op = .ok w2 →
        assoc_lookup w.policies k = some p →
        assoc_lookup w2.policies k = some p2 →
        p.is_claimed = true → p2.is_claimed = true) := by
  refine ⟨?_, liquidate_policy_ok_is_claimed, ?_, ?_⟩
  · intro existing owner s d c pb vb p rest h
    rw [initialize_policy] at h
    split at h
    · simp at h
    · injection h with h2
      injection h2 with h3 h4
      subst h3
      rfl
  · intro p obs accounts hc
    have herr : liquidate_policy p obs accounts = .error .AlreadyClaimed := by
      rw [liquidate_policy, if_pos hc]
    exact ⟨herr, by rw [run_liquidate_policy, herr]⟩
  · intro w op w2 k p p2 hstep hlk hlk2 hcl
    cases op with
    | init_policy owner s d c pb vb =>
      simp only [stepB] at hstep
      split at hstep
      · simp at hstep
      · rename_i pnew rest heq
        injection hstep with hw2
        subst hw2
        rw [initialize_policy] at heq
        split at heq
        · simp at heq
        · rename_i hnotmem
          simp only [assoc_lookup_cons] at hlk2
          by_cases hok : owner = k
          · subst hok
            rw [assoc_lookup_not_mem _ _ hnotmem] at hlk
            simp at hlk
          · rw [if_neg hok] at hlk2
            rw [hlk] at hlk2
            injection hlk2 with h5
            subst h5
            exact hcl
    | fund_vault owner amount =>
      simp only [stepB] at hstep
      injection hstep with hw2
      subst hw2
      simp only at hlk2
      rw [hlk] at hlk2
      injection hlk2 with h5
      subst h5
      exact hcl
    | liquidate owner obs user signer =>
      simp only [stepB] at hstep
      split at hstep
      · simp at hstep
      · rename_i pol hfound
        split at hstep
        · simp at hstep
        · rename_i r hliq
          injection hstep with hw2
          subst hw2
          simp only at hlk2
          by_cases hok : k = owner
          · subst hok
            rw [assoc_lookup_set_self, hfound] at hlk2
            injection hlk2 with h5
            subst h5
            exact liquidate_policy_ok_is_claimed _ _ _ _ hliq
          · rw [assoc_lookup_set_ne _ _ _ _ hok] at hlk2
            rw [hlk] at hlk2
            injection hlk2 with h5
            subst h5
            exact hcl

/-- C5, witness: a claimed policy makes liquidate_policy fail with
AlreadyClaimed on a fresh, triggering observation. -/
theorem c5_claimed_flag_witness :
    liquidate_policy ⟨1, 95000, true, 500, true, 254, 253⟩
      ⟨BTC_FEED_ID, 9000000000000, -8, 0⟩ ⟨1000, 2, 7, 3⟩ =
      .error .AlreadyClaimed :=
  (c5_claimed_flag_monotonic.2.2.1 _ ⟨BTC_FEED_ID, 9000000000000, -8, 0⟩
    ⟨1000, 2, 7, 3⟩ rfl).1

end LiqGuard

namespace LiqGuard

/-- C9: policy accounts are never deleted — every successful operation
preserves every existing policy key — and initialize_policy on an owner who
already has a policy fails with the account-already-exists error whatever the
new field values and whatever the state of the old policy (claimed or not),
while an owner without a policy can initialize one. -/
theorem c9_single_policy_per_owner :
    (∀ w op w2 k, stepB w op = .ok w2 →
        (assoc_lookup w.policies k).isSome = true →
        (assoc_lookup w2.policies k).isSome = true) ∧
    (∀ w owner s d c pb vb, (assoc_lookup w.policies owner).isSome = true →
        stepB w (.init_policy owner s d c pb vb) =
          .error .AccountAlreadyInUse) ∧
    (∀ w owner s d c pb vb, (assoc_lookup w.policies owner).isSome = false →
        (stepB w (.init_policy owner s d c pb vb)).isOk = true) := by
  refine ⟨?_, ?_, ?_⟩
  · intro w op w2 k hstep hsome
    cases op with
    | init_policy owner s d c pb vb =>
      simp only [stepB] at hstep
      split at hstep
      · simp at hstep
      · injection hstep with hw2
        subst hw2
        simp only [assoc_lookup_cons]
        by_cases hok : owner = k
        · rw [if_pos hok]
          rfl
        · rw [if_neg hok]
          exact hsome
    | fund_vault owner amount =>
      simp only [stepB] at hstep
      injection hstep with hw2
      subst hw2
      exact hsome
    | liquidate owner obs user signer =>
      simp only [stepB] at hstep
      split at hstep
      · simp at hstep
      · rename_i pol hfound
        split at hstep
        · simp at hstep
        · rename_i r hliq
          injection hstep with hw2
          subst hw2
          simp only
          by_cases hok : k = owner
          · subst hok
            rw [assoc_lookup_set_self, hfound]
            rfl
          · rw [assoc_lookup_set_ne _ _ _ _ hok]
            exact hsome
  · intro w owner s d c pb vb h
    have hmem : owner ∈ w.policies.map Prod.fst :=
      (assoc_lookup_isSome_iff _ _).mp h
    simp only [stepB]
    rw [initialize_policy, if_pos hmem]
  · intro w owner s d c pb vb h
    have hnotmem : owner ∉ w.policies.map Prod.fst := by
      rw [← assoc_lookup_isSome_iff]
      simp [h]
    simp only [stepB]
    rw [initialize_policy, if_neg hnotmem]
    rfl

/-- C9, witness: in a world whose only policy, for owner 1, is already
claimed, a second initialize_policy by owner 1 still fails with the
account-already-exists error. -/
theorem c9_single_policy_witness :
    stepB ⟨[(1, ⟨1, 95000, true, 500, true, 254, 253⟩)], [(1, 0)], []⟩
      (.init_policy 1 80000 false 300 200 199) =
      .error .AccountAlreadyInUse :=
  c9_single_policy_per_owner.2.1 _ 1 80000 false 300 200 199 (by decide)

/-- C10: initialize_policy validates none of its numeric inputs — for every
fresh owner and all u64 strike and coverage values (zeros included, either
direction flag) it succeeds and records exactly the supplied fields with the
claimed flag false; and a zero-coverage policy can later be liquidated,
moving zero lamports out of an empty vault and marking it claimed. -/
theorem c10_initialize_policy_no_validation :
    (∀ existing owner strike d coverage pb vb,
        owner ∉ existing → strike ≤ U64_MAX → coverage ≤ U64_MAX →
        initialize_policy existing owner strike d coverage pb vb =
          .ok (⟨owner, strike, d, coverage, false, pb, vb⟩, owner :: existing)) ∧
    liquidate_policy ⟨1, 0, false, 0, false, 254, 253⟩
        ⟨BTC_FEED_ID, 9500000000000, -8, 0⟩ ⟨0, 2, 7, 3⟩ =
      .ok ⟨⟨1, 0, false, 0, true, 254, 253⟩, 0, 7⟩ := by
  constructor
  · intro existing owner strike d coverage pb vb hnm _ _
    rw [initialize_policy, if_neg hnm]
  · decide

/-- C10, witness: a policy with zero strike and zero coverage is accepted and
recorded unchanged. -/
theorem c10_initialize_policy_witness :
    initialize_policy [] 1 0 true 0 254 253 =
      .ok (⟨1, 0, true, 0, false, 254, 253⟩, [1]) :=
  c10_initialize_policy_no_validation.1 [] 1 0 true 0 254 253
    (by decide) (by decide) (by decide)

end LiqGuard

namespace PolicyFactory

/-- C2: activate_policy is all-or-nothing.  Every successful run starts from
an Inactive policy, is called by the payout wallet, has a payer balance
covering the premium, ends with status Active, and moves exactly the premium
from the payer token account to the authority token account; every failing
run leaves the policy and both token accounts exactly as they were; and each
listed precondition violation yields its error without touching state. -/
theorem c2_activate_policy_atomic :
    (∀ p payer ptk atk r, activate_policy p payer ptk atk = .ok r →
        p.status = .Inactive ∧
        payer = p.payout_wallet ∧
        p.premium ≤ ptk.amount ∧
        r.policy = { p with status := .Active } ∧
        r.payer_token_account = { ptk with amount := ptk.amount - p.premium } ∧
        r.authority_token_account =
          { atk with amount := atk.amount + p.premium }) ∧
    (∀ p payer ptk atk e, activate_policy p payer ptk atk = .error e →
        run_activate_policy p payer ptk atk = (p, ptk, atk)) ∧
    (∀ p payer ptk atk,
        ptk.address = get_associated_token_address payer p.payment_mint →
        ptk.mint = p.payment_mint → ptk.owner = payer →
        ((payer ≠ p.payout_wallet →
            activate_policy p payer ptk atk =
              .error (.program .UnauthorizedPayer)) ∧
         (payer = p.payout_wallet → p.status ≠ .Inactive →
            activate_policy p payer ptk atk =
              .error (.program .PolicyAlreadyActive)) ∧
         (payer = p.payout_wallet → p.status = .Inactive →
            ptk.amount < p.premium →
            activate_policy p payer ptk atk =
              .error (.program .InsufficientBalance)) ∧
         (payer = p.payout_wallet → p.status = .Inactive →
            p.premium ≤ ptk.amount →
            atk.address ≠
              get_associated_token_address p.authority p.payment_mint →
            activate_policy p payer ptk atk =
              .error (.program .InvalidTokenAccount)))) := by
  refine ⟨?_, ?_, ?_⟩
  · intro p payer ptk atk r h
    rw [activate_policy] at h
    split_ifs at h with h1 h2 h3 h4 h5
    split at h
    · exact absurd h (by simp)
    · rename_i s d heq
      injection h with h6
      subst h6
      rw [spl_transfer] at heq
      split at heq
      · rename_i hcond
        injection heq with h7
        injection h7 with h8 h9
        subst h8
        subst h9
        exact ⟨not_ne_iff.mp h3, not_ne_iff.mp h2, hcond.2.2, rfl, rfl, rfl⟩
      · exact absurd heq (by simp)
  · intro p payer ptk atk e h
    rw [run_activate_policy, h]
  · intro p payer ptk atk hA hB hC
    have hctx : ¬ ¬ (ptk.address =
        get_associated_token_address payer p.payment_mint ∧
        ptk.mint = p.payment_mint ∧ ptk.owner = payer) :=
      not_not_intro ⟨hA, hB, hC⟩
    refine ⟨?_, ?_, ?_, ?_⟩
    · intro hne
      rw [activate_policy, if_neg hctx, if_pos hne]
    · intro hpay hst
      rw [activate_policy, if_neg hctx, if_neg (not_not_intro hpay),
        if_pos hst]
    · intro hpay hst hlt
      rw [activate_policy, if_neg hctx, if_neg (not_not_intro hpay),
        if_neg (not_not_intro hst), if_pos hlt]
    · intro hpay hst hle hne
      rw [activate_policy, if_neg hctx, if_neg (not_not_intro hpay),
        if_neg (not_not_intro hst), if_neg (Nat.not_lt.mpr hle), if_pos hne]

/-- C2, witness: a caller other than the payout wallet is rejected with
UnauthorizedPayer, and the honest activation moves exactly the premium of 5
and flips the status to Active. -/
theorem c2_activate_policy_witness :
    activate_policy
        ⟨PROGRAM_AUTHORITY, 0, 1, 0, .BTC, .Call, 10, 5, 42, 9, .Inactive, 255⟩
        7 ⟨Nat.pair 7 9, 9, 7, 5⟩
        ⟨Nat.pair PROGRAM_AUTHORITY 9, 9, PROGRAM_AUTHORITY, 0⟩ =
      .error (.program .UnauthorizedPayer) ∧
    activate_policy
        ⟨PROGRAM_AUTHORITY, 0, 1, 0, .BTC, .Call, 10, 5, 42, 9, .Inactive, 255⟩
        42 ⟨Nat.pair 42 9, 9, 42, 5⟩
        ⟨Nat.pair PROGRAM_AUTHORITY 9, 9, PROGRAM_AUTHORITY, 0⟩ =
      .ok ⟨⟨PROGRAM_AUTHORITY, 0, 1, 0, .BTC, .Call, 10, 5, 42, 9, .Active, 255⟩,
           ⟨Nat.pair 42 9, 9, 42, 0⟩,
           ⟨Nat.pair PROGRAM_AUTHORITY 9, 9, PROGRAM_AUTHORITY, 5⟩⟩ :=
  ⟨(c2_activate_policy_atomic.2.2 _ 7 _ _ rfl rfl rfl).1 (by decide),
   by decide⟩

/-- C6: close_policy called by the program authority.  With payout requested
on an Active policy it validates both token account addresses against their
expected associated token addresses, requires the authority balance to cover
the coverage amount, and transfers exactly the coverage amount to the payout
wallet token account while deleting the record; an address mismatch or an
insufficient balance is rejected; with payout not requested, or a status
other than Active, no transfer happens and the record is still deleted. -/
theorem c6_close_policy_payout_gated (p : Policy) (payout : Bool)
    (caller : Pubkey) (atk ptk : TokenAccount)
    (hcaller : caller = PROGRAM_AUTHORITY) :
    (payout = true → p.status = .Active →
      atk.address = get_associated_token_address p.authority p.payment_mint →
      ptk.address =
        get_associated_token_address p.payout_wallet p.payment_mint →
      atk.owner = caller → atk.mint = ptk.mint →
      p.coverage_amount ≤ atk.amount →
      close_policy p payout caller atk ptk =
        .ok ⟨{ atk with amount := atk.amount - p.coverage_amount },
             { ptk with amount := ptk.amount + p.coverage_amount },
             p.coverage_amount, true⟩) ∧
    (payout = true → p.status = .Active →
      atk.address ≠ get_associated_token_address p.authority p.payment_mint →
      close_policy p payout caller atk ptk =
        .error (.program .InvalidTokenAccount)) ∧
    (payout = true → p.status = .Active →
      atk.address = get_associated_token_address p.authority p.payment_mint →
      ptk.address ≠
        get_associated_token_address p.payout_wallet p.payment_mint →
      close_policy p payout caller atk ptk =
        .error (.program .InvalidTokenAccount)) ∧
    (payout = true → p.status = .Active →
      atk.address = get_associated_token_address p.authority p.payment_mint →
      ptk.address =
        get_associated_token_address p.payout_wallet p.payment_mint →
      atk.amount < p.coverage_amount →
      close_policy p payout caller atk ptk =
        .error (.program .InsufficientBalance)) ∧
    (payout = false ∨ p.status ≠ .Active →
      close_policy p payout caller atk ptk = .ok ⟨atk, ptk, 0, true⟩) := by
  have hauth : ¬ caller ≠ PROGRAM_AUTHORITY := not_not_intro hcaller
  refine ⟨?_, ?_, ?_, ?_, ?_⟩
  · intro hp hs hA hP hown hmint hle
    rw [close_policy, if_neg hauth, if_pos ⟨hp, hs⟩,
      if_neg (not_not_intro hA), if_neg (not_not_intro hP),
      if_neg (Nat.not_lt.mpr hle), spl_transfer,
      if_pos ⟨hown, hmint, hle⟩]
  · intro hp hs hA
    rw [close_policy, if_neg hauth, if_pos ⟨hp, hs⟩, if_pos hA]
  · intro hp hs hA hP
    rw [close_policy, if_neg hauth, if_pos ⟨hp, hs⟩,
      if_neg (not_not_intro hA), if_pos hP]
  · intro hp hs hA hP hlt
    rw [close_policy, if_neg hauth, if_pos ⟨hp, hs⟩,
      if_neg (not_not_intro hA), if_neg (not_not_intro hP), if_pos hlt]
  · intro hor
    have hcond : ¬ (payout = true ∧ p.status = .Active) := by
      rcases hor with h | h
      · rintro ⟨h2, -⟩
        rw [h] at h2
        exact Bool.false_ne_true h2
      · rintro ⟨-, h2⟩
        exact h h2
    rw [close_policy, if_neg hauth, if_neg hcond]

/-- C6, witness: payout requested on an Inactive policy — the transfer is
skipped (both balances unchanged, zero transferred) and the record is still
deleted. -/
theorem c6_close_policy_witness :
    close_policy
        ⟨PROGRAM_AUTHORITY, 0, 1, 0, .BTC, .Call, 10, 5, 42, 9, .Inactive, 255⟩
        true PROGRAM_AUTHORITY
        ⟨Nat.pair PROGRAM_AUTHORITY 9, 9, PROGRAM_AUTHORITY, 100⟩
        ⟨Nat.pair 42 9, 9, 42, 0⟩ =
      .ok ⟨⟨Nat.pair PROGRAM_AUTHORITY 9, 9, PROGRAM_AUTHORITY, 100⟩,
           ⟨Nat.pair 42 9, 9, 42, 0⟩, 0, true⟩ :=
  (c6_close_policy_payout_gated _ _ _ _ _ rfl).2.2.2.2 (Or.inr (by decide))

/-- C7: with a fresh (authority, nonce) pair, create_policy succeeds for the
program authority and positive amounts, allocating an Inactive record with
exactly the supplied fields, and a second call with the same pair fails with
the account-already-exists error whatever its other arguments; any zero
premium, coverage amount or strike price is rejected with InvalidAmount. -/
theorem c7_create_policy_once (existing : List (Pubkey × Nat))
    (authority : Pubkey) (nonce strike : Nat) (expiration : Int)
    (ua : UnderlyingAsset) (cp : CallOrPut) (coverage premium : Nat)
    (pw pm : Pubkey) (bump : Nat)
    (hfresh : (authority, nonce) ∉ existing) :
    (premium ≠ 0 → coverage ≠ 0 → strike ≠ 0 →
      authority = PROGRAM_AUTHORITY →
      create_policy existing authority nonce strike expiration ua cp coverage
          premium pw pm bump =
        .ok (⟨authority, nonce, strike, expiration, ua, cp, coverage, premium,
              pw, pm, .Inactive, bump⟩, (authority, nonce) :: existing) ∧
      (∀ strike2 expiration2 ua2 cp2 coverage2 premium2 pw2 pm2 bump2,
        create_policy ((authority, nonce) :: existing) authority nonce strike2
            expiration2 ua2 cp2 coverage2 premium2 pw2 pm2 bump2 =
          .error .accountAlreadyInUse)) ∧
    (premium = 0 ∨ coverage = 0 ∨ strike = 0 →
      create_policy existing authority nonce strike expiration ua cp coverage
          premium pw pm bump = .error (.program .InvalidAmount)) := by
  constructor
  · intro hpr hcov hstr hauth
    constructor
    · rw [create_policy, if_neg hfresh, if_neg hpr, if_neg hcov, if_neg hstr,
        if_neg (not_not_intro hauth)]
    · intro strike2 expiration2 ua2 cp2 coverage2 premium2 pw2 pm2 bump2
      rw [create_policy, if_pos (List.mem_cons_self _ _)]
  · intro hzero
    rw [create_policy, if_neg hfresh]
    split_ifs with h1 h2 h3 h4 <;> try rfl
    · rcases hzero with hz | hz | hz
      · exact absurd hz h1
      · exact absurd hz h2
      · exact absurd hz h3
    · rcases hzero with hz | hz | hz
      · exact absurd hz h1
      · exact absurd hz h2
      · exact absurd hz h3

/-- C7, witness: a concrete first creation succeeds with an Inactive record
and the repeat call with the same (authority, nonce) pair fails. -/
theorem c7_create_policy_witness :
    create_policy [] PROGRAM_AUTHORITY 5 95000 1735689600 .BTC .Call 1000 50
        42 9 255 =
      .ok (⟨PROGRAM_AUTHORITY, 5, 95000, 1735689600, .BTC, .Call, 1000, 50,
            42, 9, .Inactive, 255⟩, [(PROGRAM_AUTHORITY, 5)]) ∧
    create_policy [(PROGRAM_AUTHORITY, 5)] PROGRAM_AUTHORITY 5 80000 0 .ETH
        .Put 1 1 7 8 254 = .error .accountAlreadyInUse :=
  ⟨((c7_create_policy_once [] PROGRAM_AUTHORITY 5 95000 1735689600 .BTC .Call
      1000 50 42 9 255 (by decide)).1 (by decide) (by decide) (by decide)
      rfl).1,
   ((c7_create_policy_once [] PROGRAM_AUTHORITY 5 95000 1735689600 .BTC .Call
      1000 50 42 9 255 (by decide)).1 (by decide) (by decide) (by decide)
      rfl).2 80000 0 .ETH .Put 1 1 7 8 254⟩

end PolicyFactory
